import Mathlib

/-!
Verification of the gauge geometry engine and zone classifier of the
medistim-visualizer repository.

The numeric model `JSNum` embeds JavaScript IEEE-754 double semantics for the
operations the code actually uses (`Math.min`, `Math.max`, subtraction,
multiplication, division, `<=`, `>=`, `===`), with finite values represented
exactly by rationals (the code performs no operation where rounding of finite
doubles changes any property stated here).  `NaN` and the two infinities are
explicit constructors, and every operation propagates them exactly as
JavaScript does (comparisons with NaN are false, `NaN === NaN` is false,
`0/0 = NaN`, `x/0 = ±Infinity` for `x ≠ 0`, `Infinity/Infinity = NaN`,
`Infinity * 0 = NaN`, `Math.min/max` return NaN when either argument is NaN).

The trigonometric functions (`polarToCartesian`, `describeArc`) are embedded
over the real numbers; their claims involve only angles where sine and cosine
are exact.
-/

/-- JavaScript number: NaN, the two infinities, or a finite value
(represented exactly as a rational). -/
inductive JSNum where
  | nan : JSNum
  | posInf : JSNum
  | negInf : JSNum
  | num : ℚ → JSNum
deriving DecidableEq, Repr

namespace JSNum

/-- JavaScript `Math.min`: NaN-propagating minimum. -/
def jsMin : JSNum → JSNum → JSNum
  | nan, _ => nan
  | _, nan => nan
  | negInf, _ => negInf
  | _, negInf => negInf
  | posInf, b => b
  | a, posInf => a
  | num a, num b => num (min a b)

/-- JavaScript `Math.max`: NaN-propagating maximum. -/
def jsMax : JSNum → JSNum → JSNum
  | nan, _ => nan
  | _, nan => nan
  | posInf, _ => posInf
  | _, posInf => posInf
  | negInf, b => b
  | a, negInf => a
  | num a, num b => num (max a b)

/-- JavaScript subtraction `a - b`. -/
def jsSub : JSNum → JSNum → JSNum
  | nan, _ => nan
  | _, nan => nan
  | posInf, posInf => nan
  | posInf, _ => posInf
  | negInf, negInf => nan
  | negInf, _ => negInf
  | num _, posInf => negInf
  | num _, negInf => posInf
  | num a, num b => num (a - b)

/-- JavaScript multiplication `a * b`. -/
def jsMul : JSNum → JSNum → JSNum
  | nan, _ => nan
  | _, nan => nan
  | posInf, posInf => posInf
  | posInf, negInf => negInf
  | negInf, posInf => negInf
  | negInf, negInf => posInf
  | posInf, num b => if b = 0 then nan else if 0 < b then posInf else negInf
  | num a, posInf => if a = 0 then nan else if 0 < a then posInf else negInf
  | negInf, num b => if b = 0 then nan else if 0 < b then negInf else posInf
  | num a, negInf => if a = 0 then nan else if 0 < a then negInf else posInf
  | num a, num b => num (a * b)

/-- JavaScript division `a / b` (division by the zero double, which carries
sign `+0`, yields a signed infinity for a nonzero numerator and NaN for a
zero numerator). -/
def jsDiv : JSNum → JSNum → JSNum
  | nan, _ => nan
  | _, nan => nan
  | posInf, posInf => nan
  | posInf, negInf => nan
  | negInf, posInf => nan
  | negInf, negInf => nan
  | posInf, num b => if b < 0 then negInf else posInf
  | negInf, num b => if b < 0 then posInf else negInf
  | num _, posInf => num 0
  | num _, negInf => num 0
  | num a, num b =>
      if b = 0 then (if a = 0 then nan else if 0 < a then posInf else negInf)
      else num (a / b)

/-- JavaScript comparison `a <= b`: false whenever either side is NaN. -/
def jsLe : JSNum → JSNum → Bool
  | nan, _ => false
  | _, nan => false
  | negInf, _ => true
  | _, negInf => false
  | _, posInf => true
  | posInf, _ => false
  | num a, num b => decide (a ≤ b)

/-- JavaScript comparison `a >= b`, which coincides with `b <= a`
(both are false whenever either side is NaN). -/
def jsGe (a b : JSNum) : Bool := jsLe b a

/-- JavaScript strict equality `a === b` on numbers: `NaN === NaN` is false. -/
def jsStrictEq : JSNum → JSNum → Bool
  | num a, num b => decide (a = b)
  | posInf, posInf => true
  | negInf, negInf => true
  | _, _ => false

/-- Whether a JavaScript number is a finite value lying in the closed
interval `[lo, hi]` (NaN and the infinities never qualify). -/
def inClosed (lo hi : ℚ) : JSNum → Bool
  | num q => decide (lo ≤ q) && decide (q ≤ hi)
  | _ => false

end JSNum

open JSNum

/-! ## `src/utils/gaugeMath.ts`, numeric part -/

/-- `clampValue` from gaugeMath.ts:
`Math.max(min, Math.min(max, value))`. -/
def clampValue (value mn mx : JSNum) : JSNum :=
  jsMax mn (jsMin mx value)

/-- `valueToPercentage` from gaugeMath.ts:
returns 0 when `max === min`, otherwise `(clamped - min) / (max - min)`. -/
def valueToPercentage (value mn mx : JSNum) : JSNum :=
  if jsStrictEq mx mn then num 0
  else jsDiv (jsSub (clampValue value mn mx) mn) (jsSub mx mn)

/-- `percentageToAngle` from gaugeMath.ts:
`180 - clampValue(percentage, 0, 1) * 180`. -/
def percentageToAngle (percentage : JSNum) : JSNum :=
  jsSub (num 180) (jsMul (clampValue percentage (num 0) (num 1)) (num 180))

/-- `valueToAngle` from gaugeMath.ts: composition of the two conversions. -/
def valueToAngle (value mn mx : JSNum) : JSNum :=
  percentageToAngle (valueToPercentage value mn mx)

/-- `zoneToArcAngles` from gaugeMath.ts: each zone boundary value is
independently mapped through `valueToAngle`. -/
def zoneToArcAngles (zoneStart zoneEnd rangeMin rangeMax : JSNum) :
    JSNum × JSNum :=
  (valueToAngle zoneStart rangeMin rangeMax,
   valueToAngle zoneEnd rangeMin rangeMax)

/-! ## Zone data model and classifier (`src/types/metrics.ts`,
`src/unnamed/part_005`) -/

/-- `ZoneType` from the metric type definitions. -/
inductive ZoneType where
  | green : ZoneType
  | yellow : ZoneType
  | red : ZoneType
deriving DecidableEq, Repr

/-- `ZoneBoundary` from the metric type definitions.  The source field
named `end` (a Lean keyword) is rendered `stop` here. -/
structure ZoneBoundary where
  start : ℚ
  stop : ℚ
  type : ZoneType
deriving DecidableEq, Repr

/-- `MetricRange` from the metric type definitions (the display-only
`unit` and `label` strings are carried but never consumed by the math). -/
structure MetricRange where
  min : ℚ
  max : ℚ
  unit : String
  label : String
  zones : List ZoneBoundary
deriving DecidableEq, Repr

/-- The `for (const zone of range.zones)` loop body of `getZoneForValue`:
first zone whose closed interval contains the clamped value under the
JavaScript comparisons `clampedValue >= zone.start && clampedValue <= zone.end`. -/
def findZoneLoop (clampedValue : JSNum) : List ZoneBoundary → Option ZoneType
  | [] => none
  | zone :: rest =>
      if jsGe clampedValue (num zone.start) && jsLe clampedValue (num zone.stop)
      then some zone.type
      else findZoneLoop clampedValue rest

/-- Body of `getZoneForValue` once the metric key has been resolved to its
`MetricRange`: clamp, scan the zones in order, fall back to red. -/
def getZoneForValueRange (range : MetricRange) (value : JSNum) : ZoneType :=
  let clampedValue := jsMax (num range.min) (jsMin (num range.max) value)
  match findZoneLoop clampedValue range.zones with
  | some t => t
  | none => ZoneType.red

/-- Metric identifier keys from the metric type definitions. -/
inductive MetricKey where
  | MF : MetricKey
  | PI : MetricKey
  | DF : MetricKey
  | BF : MetricKey
  | ACI : MetricKey
  | MAP : MetricKey
deriving DecidableEq, Repr

/-- The `REFERENCE_RANGES` configuration table from `src/unnamed/part_005`. -/
def REFERENCE_RANGES : MetricKey → MetricRange
  | MetricKey.MF =>
      ⟨0, 200, "mL/min", "Mean Flow",
        [⟨0, 15, ZoneType.red⟩, ⟨15, 30, ZoneType.yellow⟩,
         ⟨30, 200, ZoneType.green⟩]⟩
  | MetricKey.PI =>
      ⟨0, 10, "", "Pulsatility Index",
        [⟨0, 3, ZoneType.green⟩, ⟨3, 5, ZoneType.yellow⟩,
         ⟨5, 10, ZoneType.red⟩]⟩
  | MetricKey.DF =>
      ⟨0, 100, "%", "Diastolic Filling",
        [⟨0, 50, ZoneType.red⟩, ⟨50, 70, ZoneType.yellow⟩,
         ⟨70, 100, ZoneType.green⟩]⟩
  | MetricKey.BF =>
      ⟨0, 50, "%", "Backflow",
        [⟨0, 3, ZoneType.green⟩, ⟨3, 10, ZoneType.yellow⟩,
         ⟨10, 50, ZoneType.red⟩]⟩
  | MetricKey.ACI =>
      ⟨0, 100, "%", "Acoustic Coupling",
        [⟨0, 50, ZoneType.red⟩, ⟨50, 80, ZoneType.yellow⟩,
         ⟨80, 100, ZoneType.green⟩]⟩
  | MetricKey.MAP =>
      ⟨0, 200, "mmHg", "Mean Arterial Pressure",
        [⟨0, 60, ZoneType.red⟩, ⟨60, 70, ZoneType.yellow⟩,
         ⟨70, 105, ZoneType.green⟩, ⟨105, 120, ZoneType.yellow⟩,
         ⟨120, 200, ZoneType.red⟩]⟩

/-- `getZoneForValue` from `src/unnamed/part_005`: resolve the metric key in
the configuration table, then classify. -/
def getZoneForValue (metricKey : MetricKey) (value : JSNum) : ZoneType :=
  getZoneForValueRange (REFERENCE_RANGES metricKey) value

example : getZoneForValue MetricKey.DF (num 50) = ZoneType.red := by decide
example : getZoneForValue MetricKey.MAP (num 110) = ZoneType.yellow := by decide
example : getZoneForValue MetricKey.MF nan = ZoneType.red := by decide
example : valueToPercentage (num 10) (num 0) (num 200) = num (1/20) := by
  norm_num [valueToPercentage, clampValue, jsStrictEq, jsMax, jsMin, jsSub, jsDiv]

example : valueToAngle (num 10) (num 0) (num 200) = num 171 := by
  norm_num [valueToAngle, percentageToAngle, valueToPercentage, clampValue,
    jsStrictEq, jsMax, jsMin, jsSub, jsDiv, jsMul]
example : valueToPercentage nan (num 0) (num 100) = nan := by decide

/-! ## `src/utils/gaugeMath.ts`, trigonometric part

`polarToCartesian` and `describeArc` are embedded over the real numbers;
the template-string interpolation of a coordinate is abstracted by a
formatting function `fmt : ℝ → String`, while the integral flags and the
literal rotation field are rendered as the exact decimal text JavaScript
produces for them. -/

/-- `DEG_TO_RAD` from gaugeMath.ts. -/
noncomputable def DEG_TO_RAD : ℝ := Real.pi / 180

/-- `polarToCartesian` from gaugeMath.ts: standard-convention angle with the
y contribution subtracted because the SVG y-axis grows downward. -/
noncomputable def polarToCartesian (centerX centerY radius angleInDegrees : ℝ) :
    ℝ × ℝ :=
  let angleInRadians := angleInDegrees * DEG_TO_RAD
  (centerX + radius * Real.cos angleInRadians,
   centerY - radius * Real.sin angleInRadians)

/-- `describeArc` from gaugeMath.ts.  `fmt` abstracts the JavaScript
number-to-string conversion used by the template string for the real-valued
coordinates and the radius; the flags are the numbers `1`/`0`, whose
JavaScript string conversions are exactly their decimal digits. -/
noncomputable def describeArc (fmt : ℝ → String)
    (centerX centerY radius startAngleDeg endAngleDeg : ℝ) : String :=
  let start := polarToCartesian centerX centerY radius startAngleDeg
  let stop := polarToCartesian centerX centerY radius endAngleDeg
  let angularSpan := |startAngleDeg - endAngleDeg|
  let largeArcFlag : ℕ := if angularSpan > 180 then 1 else 0
  let sweepFlag : ℕ := 0
  "M " ++ fmt start.1 ++ " " ++ fmt start.2 ++ " A " ++ fmt radius ++ " " ++
    fmt radius ++ " 0 " ++ Nat.repr largeArcFlag ++ " " ++
    Nat.repr sweepFlag ++ " " ++ fmt stop.1 ++ " " ++ fmt stop.2

/-! ## `formatDisplayValue` from gaugeMath.ts -/

/-- JavaScript `Math.round`: ties round toward positive infinity. -/
def jsRound (q : ℚ) : ℤ := ⌊q + 1 / 2⌋

/-- The exactly `f` decimal digits of `n < 10 ^ f`, most significant first
(with leading zero padding), as ECMAScript `toFixed` renders the fraction. -/
def fracDigits (n f : ℕ) : List Char :=
  (List.range f).reverse.map (fun i => Nat.digitChar (n / 10 ^ i % 10))

/-- ECMAScript `Number.prototype.toFixed` for a finite value: take the sign
from the value, round `|x| * 10 ^ f` half away from zero to an integer `n`,
and render `n` split into integer part and exactly `f` fraction digits. -/
def toFixed (x : ℚ) (f : ℕ) : String :=
  let s := if x < 0 then "-" else ""
  let n := (⌊|x| * 10 ^ f + 1 / 2⌋).toNat
  if f = 0 then s ++ Nat.repr n
  else s ++ Nat.repr (n / 10 ^ f) ++ "." ++ String.mk (fracDigits (n % 10 ^ f) f)

/-- `formatDisplayValue` from gaugeMath.ts: integers (`Number.isInteger`,
i.e. denominator 1) and zero decimal places are rendered as the rounded
integer, everything else through `toFixed`. -/
def formatDisplayValue (value : ℚ) (decimalPlaces : ℕ := 1) : String :=
  if value.den = 1 ∨ decimalPlaces = 0 then Int.repr (jsRound value)
  else toFixed value decimalPlaces

/-! ## The Gauge presentation component (`src/unnamed/part_002`) -/

/-- The fill-percentage computation inlined in the `Gauge` component:
`Math.max(0, Math.min(100, ((value - min) / (max - min)) * 100))`,
performed directly on JavaScript numbers without the degenerate-range guard
of `valueToPercentage`. -/
def gaugeFillPercentage (value mn mx : JSNum) : JSNum :=
  jsMax (num 0) (jsMin (num 100)
    (jsMul (jsDiv (jsSub value mn) (jsSub mx mn)) (num 100)))

/-! ## Spec-side definitions for the classifier claims -/

/-- Taken from the spec's words: the category of the first zone in list
order whose closed interval `[start, end]` contains the (rational) value. -/
def specFirstMatch (v : ℚ) : List ZoneBoundary → Option ZoneType
  | [] => none
  | zone :: rest =>
      if zone.start ≤ v ∧ v ≤ zone.stop then some zone.type
      else specFirstMatch v rest

/-- Taken from the spec's words: the zones, in their given order, chain from
`lo` to `hi` — each zone starts where the previous one stopped (shared
boundaries), each interval is nondegenerate in the weak sense
`start ≤ end` (hence starts are ascending), and the final stop is `hi`. -/
def zonesChain (lo hi : ℚ) : List ZoneBoundary → Bool
  | [] => lo == hi
  | zone :: rest =>
      zone.start == lo && decide (lo ≤ zone.stop) && zonesChain zone.stop hi rest

/-- Taken from the spec's words: a zone's closed interval contains a
JavaScript number (NaN and the infinities lie in no interval). -/
def zoneContains (zone : ZoneBoundary) : JSNum → Prop
  | num q => zone.start ≤ q ∧ q ≤ zone.stop
  | _ => False

instance (zone : ZoneBoundary) (x : JSNum) : Decidable (zoneContains zone x) := by
  cases x <;> simp [zoneContains] <;> infer_instance

example : zonesChain 0 100 (REFERENCE_RANGES MetricKey.DF).zones = true := by decide
example : specFirstMatch 50 (REFERENCE_RANGES MetricKey.DF).zones =
    some ZoneType.red := by decide

/-! ## Supporting lemmas -/

lemma jsLe_num_num (a b : ℚ) : jsLe (num a) (num b) = decide (a ≤ b) := rfl

lemma clampValue_num_eval (v a b : ℚ) :
    clampValue (num v) (num a) (num b) = num (max a (min b v)) := rfl

lemma clampValue_negInf_eval (a b : ℚ) :
    clampValue negInf (num a) (num b) = num a := rfl

lemma clampValue_posInf_eval (a b : ℚ) :
    clampValue posInf (num a) (num b) = num (max a b) := rfl

lemma valueToPercentage_num_eval (v a b : ℚ) (h : b ≠ a) :
    valueToPercentage (num v) (num a) (num b) =
      num ((max a (min b v) - a) / (b - a)) := by
  rw [valueToPercentage, clampValue_num_eval]
  simp only [jsStrictEq, jsSub, jsDiv, h, decide_eq_true_eq, if_false,
    decide_eq_false h, Bool.false_eq_true, sub_eq_zero]

lemma valueToPercentage_negInf_eval (a b : ℚ) (h : b ≠ a) :
    valueToPercentage negInf (num a) (num b) = num 0 := by
  rw [valueToPercentage, clampValue_negInf_eval]
  simp only [jsStrictEq, jsSub, jsDiv, decide_eq_false h, Bool.false_eq_true,
    if_false, sub_eq_zero, sub_self]
  rw [if_neg h, zero_div]

lemma valueToPercentage_posInf_eval (a b : ℚ) (h : b ≠ a) :
    valueToPercentage posInf (num a) (num b) =
      num ((max a b - a) / (b - a)) := by
  rw [valueToPercentage, clampValue_posInf_eval]
  simp only [jsStrictEq, jsSub, jsDiv, decide_eq_false h, Bool.false_eq_true,
    if_false, sub_eq_zero]
  rw [if_neg h]

lemma percentageToAngle_num_eval (p : ℚ) :
    percentageToAngle (num p) = num (180 - max 0 (min 1 p) * 180) := rfl

lemma findZoneLoop_num (v : ℚ) (zs : List ZoneBoundary) :
    findZoneLoop (num v) zs = specFirstMatch v zs := by
  induction zs with
  | nil => rfl
  | cons z rest ih =>
      by_cases h1 : z.start ≤ v
      · by_cases h2 : v ≤ z.stop
        · simp [findZoneLoop, specFirstMatch, jsGe, jsLe, h1, h2]
        · simp [findZoneLoop, specFirstMatch, jsGe, jsLe, h1, h2, ih]
      · simp [findZoneLoop, specFirstMatch, jsGe, jsLe, h1, ih]

lemma findZoneLoop_nan (zs : List ZoneBoundary) : findZoneLoop nan zs = none := by
  induction zs with
  | nil => rfl
  | cons z rest ih => simpa [findZoneLoop, jsGe, jsLe] using ih

lemma specFirstMatch_total (v hi : ℚ) :
    ∀ (lo : ℚ) (zs : List ZoneBoundary), zs ≠ [] →
      zonesChain lo hi zs = true → lo ≤ v → v ≤ hi →
      ∃ t, specFirstMatch v zs = some t := by
  intro lo zs
  induction zs generalizing lo with
  | nil => intro h; exact absurd rfl h
  | cons z rest ih =>
      intro _ hchain hlo hhi
      simp only [zonesChain, Bool.and_eq_true, beq_iff_eq,
        decide_eq_true_eq] at hchain
      obtain ⟨⟨hstart, _⟩, hrest⟩ := hchain
      by_cases hv : v ≤ z.stop
      · exact ⟨z.type, by simp [specFirstMatch, hstart ▸ hlo, hv]⟩
      · cases rest with
        | nil =>
            simp only [zonesChain, beq_iff_eq] at hrest
            exact absurd (hrest ▸ hhi) hv
        | cons z2 rest2 =>
            obtain ⟨t, ht⟩ := ih z.stop (by simp) hrest
              (le_of_lt (lt_of_not_le hv)) hhi
            exact ⟨t, by simp only [specFirstMatch, hv, and_false, if_false]; exact ht⟩

lemma findZoneLoop_none_of_no_zone (x : JSNum) (zs : List ZoneBoundary)
    (h : ∀ zone ∈ zs, ¬ zoneContains zone x) : findZoneLoop x zs = none := by
  induction zs with
  | nil => rfl
  | cons z rest ih =>
      have hz := h z (by simp)
      have hcond :
          (jsGe x (num z.start) && jsLe x (num z.stop)) = false := by
        cases x with
        | nan => rfl
        | posInf => simp [jsGe, jsLe]
        | negInf => rfl
        | num q =>
            simp only [zoneContains] at hz
            by_cases h1 : z.start ≤ q
            · by_cases h2 : q ≤ z.stop
              · exact absurd ⟨h1, h2⟩ hz
              · simp [jsGe, jsLe, h1, h2]
            · simp [jsGe, jsLe, h1]
      simp only [findZoneLoop, hcond, Bool.false_eq_true, if_false]
      exact ih (fun zone hzone => h zone (by simp [hzone]))

lemma inClosed_ne_nan {lo hi : ℚ} {x : JSNum} (h : inClosed lo hi x = true) :
    x ≠ nan := by
  cases x <;> simp_all [inClosed]

lemma clamp_low (a b v : ℚ) (h : v ≤ a) : max a (min b v) = max a (min b a) := by
  rcases le_total b v with hb | hb
  · rw [min_eq_left hb, min_eq_left (hb.trans h)]
  · rw [min_eq_right hb, max_eq_left h]
    rcases le_total b a with hba | hba
    · rw [min_eq_left hba, max_eq_left hba]
    · rw [min_eq_right hba, max_self]

lemma clamp_high (a b v : ℚ) (h : b ≤ v) :
    max a (min b v) = max a (min b b) := by
  rw [min_eq_left h, min_self]

/-! ## Claims -/

/-- C1: for every metric range whose zones are listed in ascending start
order and cover `[min, max]` with shared boundaries, and every value in
`[min, max]`, the classifier is total and returns the category of the first
zone in list order whose closed interval contains the (here unchanged by
clamping) value — so a value on a boundary shared by two adjacent zones
resolves to the earlier zone. -/
theorem zone_classification_first_match (r : MetricRange)
    (hzones : r.zones ≠ [])
    (hchain : zonesChain r.min r.max r.zones = true)
    (v : ℚ) (hlo : r.min ≤ v) (hhi : v ≤ r.max) :
    ∃ t, specFirstMatch v r.zones = some t ∧
      getZoneForValueRange r (num v) = t := by
  obtain ⟨t, ht⟩ := specFirstMatch_total v r.max r.min r.zones hzones hchain hlo hhi
  refine ⟨t, ht, ?_⟩
  have hclamp : jsMax (num r.min) (jsMin (num r.max) (num v)) = num v := by
    show num (max r.min (min r.max v)) = num v
    rw [min_eq_right hhi, max_eq_right hlo]
  simp only [getZoneForValueRange]
  rw [hclamp, findZoneLoop_num, ht]

/-- Concrete two-zone range exercising the shared-boundary tie-break of the
spec's example: `[0,50] = red (concerning)`, `[50,70] = yellow (caution)`. -/
def boundaryExampleRange : MetricRange :=
  ⟨0, 70, "", "", [⟨0, 50, ZoneType.red⟩, ⟨50, 70, ZoneType.yellow⟩]⟩

/-- Witness for C1 at the spec's boundary example: the shared boundary 50
classifies as the earlier (red/concerning) zone. -/
theorem zone_classification_first_match_witness :
    getZoneForValueRange boundaryExampleRange (num 50) = ZoneType.red ∧
    ∃ t, specFirstMatch 50 boundaryExampleRange.zones = some t ∧
      getZoneForValueRange boundaryExampleRange (num 50) = t :=
  ⟨by decide,
   zone_classification_first_match boundaryExampleRange (by decide) (by decide)
     50 (by decide) (by decide)⟩

/-- C5: classification of an out-of-range value agrees with classification
of the clamped boundary value (also for the infinities); and whenever no
zone interval contains the clamped value — in particular for NaN input,
whatever the zone table — the classifier falls back to red without failing. -/
theorem classifier_clamp_and_fallback :
    (∀ (r : MetricRange) (v : ℚ), v < r.min →
        getZoneForValueRange r (num v) = getZoneForValueRange r (num r.min)) ∧
    (∀ (r : MetricRange) (v : ℚ), r.max < v →
        getZoneForValueRange r (num v) = getZoneForValueRange r (num r.max)) ∧
    (∀ r : MetricRange, getZoneForValueRange r posInf =
        getZoneForValueRange r (num r.max)) ∧
    (∀ r : MetricRange, getZoneForValueRange r negInf =
        getZoneForValueRange r (num r.min)) ∧
    (∀ (r : MetricRange) (v : JSNum),
        (∀ zone ∈ r.zones,
          ¬ zoneContains zone (jsMax (num r.min) (jsMin (num r.max) v))) →
        getZoneForValueRange r v = ZoneType.red) ∧
    (∀ r : MetricRange, getZoneForValueRange r nan = ZoneType.red) := by
  refine ⟨?_, ?_, ?_, ?_, ?_, ?_⟩
  · intro r v h
    have hs : jsMax (num r.min) (jsMin (num r.max) (num v)) =
        jsMax (num r.min) (jsMin (num r.max) (num r.min)) := by
      show num (max r.min (min r.max v)) = num (max r.min (min r.max r.min))
      rw [clamp_low r.min r.max v (le_of_lt h)]
    simp only [getZoneForValueRange]
    rw [hs]
  · intro r v h
    have hs : jsMax (num r.min) (jsMin (num r.max) (num v)) =
        jsMax (num r.min) (jsMin (num r.max) (num r.max)) := by
      show num (max r.min (min r.max v)) = num (max r.min (min r.max r.max))
      rw [clamp_high r.min r.max v (le_of_lt h)]
    simp only [getZoneForValueRange]
    rw [hs]
  · intro r
    have hs : jsMax (num r.min) (jsMin (num r.max) posInf) =
        jsMax (num r.min) (jsMin (num r.max) (num r.max)) := by
      show num (max r.min r.max) = num (max r.min (min r.max r.max))
      rw [min_self]
    simp only [getZoneForValueRange]
    rw [hs]
  · intro r
    have hs : jsMax (num r.min) (jsMin (num r.max) negInf) =
        jsMax (num r.min) (jsMin (num r.max) (num r.min)) := by
      show num r.min = num (max r.min (min r.max r.min))
      rcases le_total r.max r.min with hba | hba
      · rw [min_eq_left hba, max_eq_left hba]
      · rw [min_eq_right hba, max_self]
    simp only [getZoneForValueRange]
    rw [hs]
  · intro r v h
    simp only [getZoneForValueRange]
    rw [findZoneLoop_none_of_no_zone _ _ h]
  · intro r
    simp only [getZoneForValueRange]
    rw [show jsMax (num r.min) (jsMin (num r.max) nan) = nan from rfl,
      findZoneLoop_nan]

/-- A deliberately non-covering zone table: its single zone `[2,3]` misses
the clamped value 0. -/
def gapRange : MetricRange := ⟨0, 10, "", "", [⟨2, 3, ZoneType.green⟩]⟩

/-- Witness for C5: below-range and NaN inputs on the DF table, and the red
fallback on a non-covering table. -/
theorem classifier_clamp_and_fallback_witness :
    getZoneForValueRange (REFERENCE_RANGES MetricKey.DF) (num (-5)) =
      getZoneForValueRange (REFERENCE_RANGES MetricKey.DF)
        (num (REFERENCE_RANGES MetricKey.DF).min) ∧
    getZoneForValueRange gapRange (num 0) = ZoneType.red ∧
    getZoneForValueRange (REFERENCE_RANGES MetricKey.MF) nan = ZoneType.red :=
  ⟨classifier_clamp_and_fallback.1 (REFERENCE_RANGES MetricKey.DF) (-5) (by decide),
   classifier_clamp_and_fallback.2.2.2.2.1 gapRange (num 0) (by decide),
   classifier_clamp_and_fallback.2.2.2.2.2 (REFERENCE_RANGES MetricKey.MF)⟩

/-- C3: for every JavaScript-number value (NaN and the infinities included)
and every numeric bound `m`, `valueToPercentage` on the zero-width range
`[m, m]` returns exactly 0 through the `===` guard; and whenever the guard
does not fire the divisor `max - min` is never the number 0, so no division
by zero is ever performed. -/
theorem degenerate_range_zero :
    (∀ (v : JSNum) (m : ℚ), valueToPercentage v (num m) (num m) = num 0) ∧
    (∀ mn mx : JSNum, jsStrictEq mx mn = false → jsSub mx mn ≠ num 0) := by
  constructor
  · intro v m
    simp [valueToPercentage, jsStrictEq]
  · intro mn mx h
    cases mn <;> cases mx <;>
      simp_all [jsStrictEq, jsSub, sub_eq_zero]

/-- Witness for C3: a NaN value on the zero-width range `[7, 7]` still
yields 0, and the divisor for the non-degenerate pair (3, 5) is nonzero. -/
theorem degenerate_range_zero_witness :
    valueToPercentage nan (num 7) (num 7) = num 0 ∧
    jsSub (num 5) (num 3) ≠ num 0 :=
  ⟨degenerate_range_zero.1 nan 7,
   degenerate_range_zero.2 (num 3) (num 5) (by decide)⟩

/-- C4: for numeric bounds `min < max`, every value `<= min` (under the
JavaScript comparison, so also `-Infinity`) maps to percentage 0 and angle
180, and every value `>= max` (so also `+Infinity`) maps to percentage 1
and angle 0. -/
theorem endpoint_clamping (v : JSNum) (mn mx : ℚ) (hlt : mn < mx) :
    (jsLe v (num mn) = true →
       valueToPercentage v (num mn) (num mx) = num 0 ∧
       valueToAngle v (num mn) (num mx) = num 180) ∧
    (jsLe (num mx) v = true →
       valueToPercentage v (num mn) (num mx) = num 1 ∧
       valueToAngle v (num mn) (num mx) = num 0) := by
  have hne : mx ≠ mn := hlt.ne'
  have hangle0 : percentageToAngle (num 0) = num 180 := by
    rw [percentageToAngle_num_eval]
    norm_num
  have hangle1 : percentageToAngle (num 1) = num 0 := by
    rw [percentageToAngle_num_eval]
    norm_num
  constructor
  · intro hv
    have hp : valueToPercentage v (num mn) (num mx) = num 0 := by
      cases v with
      | nan => exact absurd hv (by simp [jsLe])
      | posInf => exact absurd hv (by simp [jsLe])
      | negInf => exact valueToPercentage_negInf_eval mn mx hne
      | num a =>
          have ha : a ≤ mn := of_decide_eq_true hv
          rw [valueToPercentage_num_eval a mn mx hne,
            min_eq_right (ha.trans hlt.le), max_eq_left ha, sub_self, zero_div]
    exact ⟨hp, by rw [valueToAngle, hp, hangle0]⟩
  · intro hv
    have hp : valueToPercentage v (num mn) (num mx) = num 1 := by
      cases v with
      | nan => exact absurd hv (by simp [jsLe])
      | negInf => exact absurd hv (by simp [jsLe])
      | posInf =>
          rw [valueToPercentage_posInf_eval mn mx hne, max_eq_right hlt.le,
            div_self (sub_ne_zero.mpr hne)]
      | num a =>
          have ha : mx ≤ a := of_decide_eq_true hv
          rw [valueToPercentage_num_eval a mn mx hne, min_eq_left ha,
            max_eq_right hlt.le, div_self (sub_ne_zero.mpr hne)]
    exact ⟨hp, by rw [valueToAngle, hp, hangle1]⟩

/-- Witness for C4: value -3 on range [0, 100] gives percentage 0 and angle
180; value 250 on range [0, 200] gives percentage 1 and angle 0. -/
theorem endpoint_clamping_witness :
    (valueToPercentage (num (-3)) (num 0) (num 100) = num 0 ∧
     valueToAngle (num (-3)) (num 0) (num 100) = num 180) ∧
    (valueToPercentage (num 250) (num 0) (num 200) = num 1 ∧
     valueToAngle (num 250) (num 0) (num 200) = num 0) :=
  ⟨(endpoint_clamping (num (-3)) 0 100 (by norm_num)).1 (by decide),
   (endpoint_clamping (num 250) 0 200 (by norm_num)).2 (by decide)⟩

/-- C2 counterexample: the claim extends the `[0,1]` / `[0,180]` range
guarantees to NaN and infinite inputs, but a NaN value propagates to a NaN
percentage and a NaN angle, and infinite bounds propagate to a NaN
percentage, none of which lie in any interval. -/
theorem percentage_angle_range_counterexample :
    inClosed 0 1 (valueToPercentage nan (num 0) (num 100)) = false ∧
    inClosed 0 180 (percentageToAngle nan) = false ∧
    inClosed 0 1 (valueToPercentage (num 0) negInf posInf) = false := by
  refine ⟨rfl, rfl, rfl⟩

/-- C2 as amended: for every non-NaN value (the infinities included) and
finite bounds, `valueToPercentage` lands in `[0,1]`; for every non-NaN
percentage `percentageToAngle` lands in `[0,180]`; and `valueToAngle`
inherits both.  (Totality — "neither operation throws" — holds by
construction: every operation is a total function of the model.) -/
theorem percentage_angle_ranges_amended :
    (∀ (v : JSNum) (mn mx : ℚ), v ≠ nan →
       inClosed 0 1 (valueToPercentage v (num mn) (num mx)) = true) ∧
    (∀ p : JSNum, p ≠ nan → inClosed 0 180 (percentageToAngle p) = true) ∧
    (∀ (v : JSNum) (mn mx : ℚ), v ≠ nan →
       inClosed 0 180 (valueToAngle v (num mn) (num mx)) = true) := by
  have hper : ∀ (v : JSNum) (mn mx : ℚ), v ≠ nan →
      inClosed 0 1 (valueToPercentage v (num mn) (num mx)) = true := by
    intro v mn mx hv
    by_cases heq : mx = mn
    · subst heq
      simp [valueToPercentage, jsStrictEq, inClosed]
    · have hP : ∀ q ∈ Set.Icc mn mx ∪ {mn},
          inClosed 0 1 (num ((q - mn) / (mx - mn))) = true := by
        intro q hq
        rcases hq with hq | hq
        · rcases lt_or_gt_of_ne heq with hlt | hgt
          · exact absurd (hq.1.trans hq.2) (not_le.mpr hlt)
          · have h1 : 0 ≤ q - mn := by linarith [hq.1]
            have h2 : q - mn ≤ mx - mn := by linarith [hq.2]
            have hpos : (0:ℚ) < mx - mn := by linarith
            simp only [inClosed, Bool.and_eq_true, decide_eq_true_eq]
            exact ⟨div_nonneg h1 hpos.le, (div_le_one hpos).mpr h2⟩
        · simp only [Set.mem_singleton_iff] at hq
          subst hq
          simp [inClosed, sub_self, zero_div]
      cases v with
      | nan => exact absurd rfl hv
      | negInf =>
          rw [valueToPercentage_negInf_eval mn mx heq]
          simp [inClosed]
      | posInf =>
          rw [valueToPercentage_posInf_eval mn mx heq]
          rcases lt_or_gt_of_ne heq with hlt | hgt
          · rw [max_eq_left hlt.le]
            exact hP mn (Or.inr rfl)
          · rw [max_eq_right hgt.le]
            exact hP mx (Or.inl ⟨hgt.le, le_refl mx⟩)
      | num a =>
          rw [valueToPercentage_num_eval a mn mx heq]
          rcases lt_or_gt_of_ne heq with hlt | hgt
          · have hm : max mn (min mx a) = mn :=
              max_eq_left ((min_le_left _ _).trans hlt.le)
            rw [hm]
            exact hP mn (Or.inr rfl)
          · exact hP _
              (Or.inl ⟨le_max_left _ _, max_le hgt.le (min_le_left _ _)⟩)
  have hang : ∀ p : JSNum, p ≠ nan →
      inClosed 0 180 (percentageToAngle p) = true := by
    intro p hp
    cases p with
    | nan => exact absurd rfl hp
    | negInf =>
        show inClosed 0 180 (num (180 - max 0 (min 1 0) * 180)) = true
        norm_num [inClosed]
    | posInf =>
        show inClosed 0 180 (num (180 - max 0 (min 1 1) * 180)) = true
        norm_num [inClosed]
    | num q =>
        rw [percentageToAngle_num_eval]
        have h0 : (0:ℚ) ≤ max 0 (min 1 q) := le_max_left _ _
        have h1 : max 0 (min 1 q) ≤ 1 := max_le (by norm_num) (min_le_left _ _)
        simp only [inClosed, Bool.and_eq_true, decide_eq_true_eq]
        constructor
        · nlinarith
        · nlinarith
  refine ⟨hper, hang, ?_⟩
  intro v mn mx hv
  exact hang _ (inClosed_ne_nan (hper v mn mx hv))

/-- Witness for the amended C2: an infinite value on [0, 100] yields a
percentage in `[0,1]`, an infinite raw percentage yields an angle in
`[0,180]`, and a finite value yields an angle in `[0,180]`. -/
theorem percentage_angle_ranges_amended_witness :
    inClosed 0 1 (valueToPercentage posInf (num 0) (num 100)) = true ∧
    inClosed 0 180 (percentageToAngle negInf) = true ∧
    inClosed 0 180 (valueToAngle (num 42) (num 0) (num 100)) = true :=
  ⟨percentage_angle_ranges_amended.1 posInf 0 100 (by decide),
   percentage_angle_ranges_amended.2.1 negInf (by decide),
   percentage_angle_ranges_amended.2.2 (num 42) 0 100 (by decide)⟩

lemma valueToAngle_num_eval (v a b : ℚ) (h : b ≠ a) :
    valueToAngle (num v) (num a) (num b) =
      num (180 - max 0 (min 1 ((max a (min b v) - a) / (b - a))) * 180) := by
  rw [valueToAngle, valueToPercentage_num_eval v a b h, percentageToAngle_num_eval]

/-- C6: for fixed numeric bounds `min < max` the value-to-angle mapping is
monotonically non-increasing on `[min, max]` (under the JavaScript `<=`),
and consequently `zoneToArcAngles` maps a zone with `start <= end` to a
start angle at least its end angle. -/
theorem angle_monotone (mn mx v1 v2 : ℚ) (hlt : mn < mx)
    (h1 : mn ≤ v1) (h12 : v1 ≤ v2) (h2 : v2 ≤ mx) :
    jsLe (valueToAngle (num v2) (num mn) (num mx))
      (valueToAngle (num v1) (num mn) (num mx)) = true ∧
    jsLe (zoneToArcAngles (num v1) (num v2) (num mn) (num mx)).2
      (zoneToArcAngles (num v1) (num v2) (num mn) (num mx)).1 = true := by
  have hne : mx ≠ mn := hlt.ne'
  have hc : max mn (min mx v1) ≤ max mn (min mx v2) :=
    max_le_max (le_refl mn) (min_le_min (le_refl mx) h12)
  have hP : (max mn (min mx v1) - mn) / (mx - mn) ≤
      (max mn (min mx v2) - mn) / (mx - mn) :=
    (div_le_div_right (sub_pos.mpr hlt)).mpr (sub_le_sub_right hc mn)
  have hm : max 0 (min 1 ((max mn (min mx v1) - mn) / (mx - mn))) ≤
      max 0 (min 1 ((max mn (min mx v2) - mn) / (mx - mn))) :=
    max_le_max le_rfl (min_le_min le_rfl hP)
  have hangle :
      180 - max 0 (min 1 ((max mn (min mx v2) - mn) / (mx - mn))) * 180 ≤
      180 - max 0 (min 1 ((max mn (min mx v1) - mn) / (mx - mn))) * 180 :=
    sub_le_sub_left (mul_le_mul_of_nonneg_right hm (by norm_num)) 180
  have hmain : jsLe (valueToAngle (num v2) (num mn) (num mx))
      (valueToAngle (num v1) (num mn) (num mx)) = true := by
    rw [valueToAngle_num_eval v2 mn mx hne, valueToAngle_num_eval v1 mn mx hne,
      jsLe_num_num]
    exact decide_eq_true hangle
  exact ⟨hmain, hmain⟩

/-- Witness for C6 on the range [0, 100] with values 10 <= 20. -/
theorem angle_monotone_witness :
    jsLe (valueToAngle (num 20) (num 0) (num 100))
      (valueToAngle (num 10) (num 0) (num 100)) = true ∧
    jsLe (zoneToArcAngles (num 10) (num 20) (num 0) (num 100)).2
      (zoneToArcAngles (num 10) (num 20) (num 0) (num 100)).1 = true :=
  angle_monotone 0 100 10 20 (by norm_num) (by norm_num) (by norm_num)
    (by norm_num)

/-- C7: `describeArc` produces exactly the path string
`M sx sy A r r 0 largeArcFlag 0 ex ey` with both endpoints computed by
`polarToCartesian` at the start and end angles, the large-arc flag set to 1
precisely when the absolute angular span exceeds 180, and a constant sweep
flag 0 for every input. -/
theorem describeArc_format (fmt : ℝ → String) (cx cy r sDeg eDeg : ℝ) :
    describeArc fmt cx cy r sDeg eDeg =
      "M " ++ fmt (polarToCartesian cx cy r sDeg).1 ++ " " ++
        fmt (polarToCartesian cx cy r sDeg).2 ++ " A " ++ fmt r ++ " " ++
        fmt r ++ " 0 " ++ (if |sDeg - eDeg| > 180 then "1" else "0") ++ " " ++
        "0" ++ " " ++ fmt (polarToCartesian cx cy r eDeg).1 ++ " " ++
        fmt (polarToCartesian cx cy r eDeg).2 := by
  by_cases h : |sDeg - eDeg| > 180
  · simp only [describeArc, if_pos h]
    rfl
  · simp only [describeArc, if_neg h]
    rfl

/-- C8: `polarToCartesian` sends angle 180 to `(cx - r, cy)`, angle 0 to
`(cx + r, cy)`, and angle 90 to `(cx, cy - r)` — the y contribution is
sign-inverted relative to standard trigonometry. -/
theorem polarToCartesian_cardinal_angles (cx cy r : ℝ) :
    polarToCartesian cx cy r 180 = (cx - r, cy) ∧
    polarToCartesian cx cy r 0 = (cx + r, cy) ∧
    polarToCartesian cx cy r 90 = (cx, cy - r) := by
  have h180 : (180:ℝ) * DEG_TO_RAD = Real.pi := by
    simp only [DEG_TO_RAD]; ring
  have h0 : (0:ℝ) * DEG_TO_RAD = 0 := by ring
  have h90 : (90:ℝ) * DEG_TO_RAD = Real.pi / 2 := by
    simp only [DEG_TO_RAD]; ring
  refine ⟨?_, ?_, ?_⟩
  · simp only [polarToCartesian, h180, Real.cos_pi, Real.sin_pi]
    rw [Prod.mk.injEq]
    constructor <;> ring
  · simp only [polarToCartesian, h0, Real.cos_zero, Real.sin_zero]
    rw [Prod.mk.injEq]
    constructor <;> ring
  · simp only [polarToCartesian, h90, Real.cos_pi_div_two, Real.sin_pi_div_two]
    rw [Prod.mk.injEq]
    constructor <;> ring

/-- C9: `formatDisplayValue` renders integers and the zero-decimal-places
case as the rounded integer with no decimal point, and otherwise renders
exactly `decimalPlaces` fractional digits with rounding (not truncation), as
the three spec examples confirm. -/
theorem formatDisplayValue_spec :
    (∀ (v : ℚ) (d : ℕ), v.den = 1 ∨ d = 0 →
        formatDisplayValue v d = Int.repr (jsRound v)) ∧
    (∀ (v : ℚ) (d : ℕ), v.den ≠ 1 → d ≠ 0 →
        ∃ a b : String, formatDisplayValue v d = a ++ "." ++ b ∧
          b.length = d) ∧
    formatDisplayValue 3 1 = "3" ∧
    formatDisplayValue (3456/1000) 1 = "3.5" ∧
    formatDisplayValue (3456/1000) 0 = "3" := by
  have hden : (3456/1000 : ℚ).den = 125 := by norm_num
  refine ⟨?_, ?_, ?_, ?_, ?_⟩
  · intro v d h
    simp only [formatDisplayValue]
    rw [if_pos h]
  · intro v d h1 h2
    simp only [formatDisplayValue, toFixed]
    rw [if_neg (by simp [h1, h2]), if_neg h2]
    exact ⟨(if v < 0 then "-" else "") ++
        Nat.repr ((⌊|v| * 10 ^ d + 1 / 2⌋).toNat / 10 ^ d),
      String.mk (fracDigits ((⌊|v| * 10 ^ d + 1 / 2⌋).toNat % 10 ^ d) d),
      rfl, by simp [fracDigits, String.length]⟩
  · have h3 : jsRound 3 = 3 := by
      simp only [jsRound]
      norm_num
    simp only [formatDisplayValue]
    rw [if_pos (Or.inl (by decide)), h3]
    decide
  · simp only [formatDisplayValue]
    rw [if_neg (by simp [hden])]
    simp only [toFixed]
    have habs : |(3456/1000:ℚ)| = 3456/1000 := abs_of_nonneg (by norm_num)
    have hfloor : ⌊|(3456/1000:ℚ)| * 10 ^ 1 + 1 / 2⌋ = 35 := by
      rw [habs]
      norm_num
    rw [if_neg one_ne_zero, if_neg (by norm_num : ¬((3456/1000:ℚ) < 0)), hfloor]
    decide
  · have h3 : jsRound (3456/1000) = 3 := by
      simp only [jsRound]
      norm_num
    simp only [formatDisplayValue]
    rw [if_pos (Or.inr trivial), h3]
    decide

/-- Witness for C9: the integer 7 renders as a rounded integer; the
non-integer 1/2 with two decimal places renders with exactly two fraction
digits. -/
theorem formatDisplayValue_spec_witness :
    formatDisplayValue 7 2 = Int.repr (jsRound 7) ∧
    (∃ a b : String, formatDisplayValue (1/2) 2 = a ++ "." ++ b ∧
      b.length = 2) :=
  ⟨formatDisplayValue_spec.1 7 2 (Or.inl (by decide)),
   formatDisplayValue_spec.2.1 (1/2) 2 (by norm_num) (by decide)⟩

/-- C10 counterexample: on the degenerate range `min = max = 0` the Gauge
component's unguarded fill computation yields 100 — not NaN — for value 1:
the division produces `+Infinity`, which the `Math.min(100, ...)` clamp
turns into 100. -/
theorem gauge_fill_nan_counterexample :
    gaugeFillPercentage (num 1) (num 0) (num 0) = num 100 ∧
    (num 100 : JSNum) ≠ nan := by
  constructor
  · have hdiv : jsDiv (num ((1:ℚ) - 0)) (num ((0:ℚ) - 0)) = posInf := by
      simp only [jsDiv]
      rw [if_pos (by norm_num), if_neg (by norm_num), if_pos (by norm_num)]
    have hmul : jsMul posInf (num 100) = posInf := by
      simp only [jsMul]
      rw [if_neg (by norm_num), if_pos (by norm_num)]
    show jsMax (num 0) (jsMin (num 100)
      (jsMul (jsDiv (num ((1:ℚ) - 0)) (num ((0:ℚ) - 0))) (num 100))) = num 100
    rw [hdiv, hmul]
    show num (max 0 100) = num 100
    rw [max_eq_right (by norm_num)]
  · decide

/-- C10 as amended: the Gauge component computes its fill directly from the
unguarded formula, so on a degenerate range `min = max` the fill is NaN
exactly when `value = min` (the NaN survives both clamps), saturates to 100
for `value > min` and to 0 for `value < min` — whereas the guarded core
`valueToPercentage` yields fill 0 for every value.  The degenerate-range
fallback of the core therefore does not extend to the rendering path. -/
theorem gauge_fill_degenerate_amended (m v : ℚ) :
    gaugeFillPercentage (num v) (num m) (num m) =
      (if v = m then nan else if m < v then num 100 else num 0) ∧
    jsMul (valueToPercentage (num v) (num m) (num m)) (num 100) = num 0 := by
  constructor
  · rcases lt_trichotomy v m with hvm | hvm | hvm
    · rw [if_neg hvm.ne, if_neg (not_lt.mpr hvm.le)]
      have hdiv : jsDiv (num (v - m)) (num (m - m)) = negInf := by
        simp only [jsDiv]
        rw [if_pos (sub_self m), if_neg (sub_ne_zero.mpr hvm.ne),
          if_neg (by rw [sub_pos]; exact not_lt.mpr hvm.le)]
      have hmul : jsMul negInf (num 100) = negInf := by
        simp only [jsMul]
        rw [if_neg (by norm_num), if_pos (by norm_num)]
      show jsMax (num 0) (jsMin (num 100)
        (jsMul (jsDiv (num (v - m)) (num (m - m))) (num 100))) = num 0
      rw [hdiv, hmul]
      rfl
    · subst hvm
      rw [if_pos rfl]
      have hdiv : jsDiv (num (v - v)) (num (v - v)) = nan := by
        simp only [jsDiv]
        rw [if_pos (sub_self v), if_pos (sub_self v)]
      show jsMax (num 0) (jsMin (num 100)
        (jsMul (jsDiv (num (v - v)) (num (v - v))) (num 100))) = nan
      rw [hdiv]
      rfl
    · rw [if_neg hvm.ne', if_pos hvm]
      have hdiv : jsDiv (num (v - m)) (num (m - m)) = posInf := by
        simp only [jsDiv]
        rw [if_pos (sub_self m), if_neg (sub_ne_zero.mpr hvm.ne'),
          if_pos (sub_pos.mpr hvm)]
      have hmul : jsMul posInf (num 100) = posInf := by
        simp only [jsMul]
        rw [if_neg (by norm_num), if_pos (by norm_num)]
      show jsMax (num 0) (jsMin (num 100)
        (jsMul (jsDiv (num (v - m)) (num (m - m))) (num 100))) = num 100
      rw [hdiv, hmul]
      show num (max 0 100) = num 100
      rw [max_eq_right (by norm_num)]
  · have h0 : valueToPercentage (num v) (num m) (num m) = num 0 := by
      simp [valueToPercentage, jsStrictEq]
    rw [h0]
    show num ((0:ℚ) * 100) = num 0
    rw [zero_mul]
